import Mathlib

/-!
Shallow embedding of `src/OpusEncoder/opus_frame_encoder.c` from the
opus-transcriber-proxy repository.

The wrapper pairs a libopus encoder instance with cached configuration
(sample rate, channel count, 20ms frame size) and exposes six entry points:
create, get_frame_size, encode, destroy, set_bitrate, set_complexity.

The external codec engine (libopus) is abstracted as a record of pure
functions over an opaque encoder-state type `E`: its constructor, its
single-frame encode call, and its generic control call.  The wrapper code
itself is translated statement by statement.

Memory effects (malloc/free of the context, creation/destruction of the
engine instance) are recorded as an explicit event trace so that the
atomicity and leak-freedom properties of the spec are statable.

C integer subtlety kept faithful: in
`pcm_length / sizeof(opus_int16) / ctx->channels` the operand
`sizeof(opus_int16)` has type `size_t` (unsigned, 32-bit under
emscripten/wasm32), so `pcm_length` and `ctx->channels` are converted to
unsigned 32-bit values before the divisions, and the quotient is then
converted back to (wrapping) signed `int` when stored in `num_samples`.
-/

/-- `OPUS_OK` from the engine's public header. -/
def OPUS_OK : Int := 0

/-- Control identifier behind the `OPUS_SET_BITRATE(x)` macro (external header). -/
def OPUS_SET_BITRATE_REQUEST : Int := 4002

/-- Control identifier behind the `OPUS_SET_COMPLEXITY(x)` macro (external header). -/
def OPUS_SET_COMPLEXITY_REQUEST : Int := 4010

/-- The external Codec Engine (libopus), abstracted as pure functions over an
opaque encoder-state type `E`.
* `opus_encoder_create sample_rate channels application` returns the encoder
  instance (or `none` for NULL) together with the status written to `*error`.
* `opus_encode st pcm num_samples out max_bytes` returns the mutated engine
  state, the return value (byte count or negative status), and the contents
  of the output buffer after the call.
* `opus_encoder_ctl st request value` returns the mutated engine state and
  the status code. -/
structure CodecEngine (E : Type) where
  opus_encoder_create : Int → Int → Int → Option E × Int
  opus_encode : E → List Nat → Int → List Nat → Int → E × Int × List Nat
  opus_encoder_ctl : E → Int → Int → E × Int

/-- The `opus_encoder_context` struct of the C source.  `encoder` is the
possibly-NULL engine pointer. -/
structure opus_encoder_context (E : Type) where
  encoder : Option E
  sample_rate : Int
  channels : Int
  frame_size : Int

/-- Allocation events emitted by create/destroy: malloc/free of the context
struct, and creation/destruction of an engine instance. -/
inductive AllocEvent
  | ctxAlloc
  | ctxFree
  | engAlloc
  | engFree
deriving DecidableEq

/-- Net number of outstanding context (`malloc`) allocations in a trace. -/
def ctxNet (tr : List AllocEvent) : Int :=
  (tr.count AllocEvent.ctxAlloc : Int) - (tr.count AllocEvent.ctxFree : Int)

/-- Net number of outstanding engine instances in a trace. -/
def engNet (tr : List AllocEvent) : Int :=
  (tr.count AllocEvent.engAlloc : Int) - (tr.count AllocEvent.engFree : Int)

/-- Conversion of a C `int` value to `size_t` (unsigned 32-bit under
emscripten/wasm32): reduction modulo 2^32. -/
def toSizeT (x : Int) : Nat := (x % 4294967296).toNat

/-- Conversion of an unsigned 32-bit value back to a C `int`
(two's-complement wrap, the emscripten/clang behavior). -/
def toCInt (n : Nat) : Int :=
  if n % 4294967296 < 2147483648 then ((n % 4294967296 : Nat) : Int)
  else ((n % 4294967296 : Nat) : Int) - 4294967296

/-- The C line `int num_samples = pcm_length / sizeof(opus_int16) / ctx->channels;`.
`sizeof(opus_int16) = 2` has type `size_t`, so both divisions are performed
on unsigned 32-bit values and the result is converted back to `int`. -/
def num_samples (pcm_length channels : Int) : Int :=
  toCInt (toSizeT pcm_length / 2 / toSizeT channels)

/-- `opus_frame_encoder_create(sample_rate, channels, application)`.
`mallocOk` is the oracle deciding whether the context `malloc` succeeds.
Returns the context pointer (`none` = NULL) and the allocation-event trace
of the call. -/
def opus_frame_encoder_create {E : Type} (eng : CodecEngine E) (mallocOk : Bool)
    (sample_rate channels application : Int) :
    Option (opus_encoder_context E) × List AllocEvent :=
  if mallocOk = false then
    (none, [])
  else
    match eng.opus_encoder_create sample_rate channels application with
    | (none, _error) =>
        (none, [AllocEvent.ctxAlloc, AllocEvent.ctxFree])
    | (some enc, error) =>
        if error ≠ OPUS_OK then
          (none, [AllocEvent.ctxAlloc, AllocEvent.engAlloc, AllocEvent.ctxFree])
        else
          (some { encoder := some enc
                  sample_rate := sample_rate
                  channels := channels
                  frame_size := sample_rate / 50 },
           [AllocEvent.ctxAlloc, AllocEvent.engAlloc])

/-- `opus_frame_encoder_get_frame_size(ctx)`: `return ctx ? ctx->frame_size : 0;`.
Takes no engine argument because the C function never calls into the engine. -/
def opus_frame_encoder_get_frame_size {E : Type}
    (ctx : Option (opus_encoder_context E)) : Int :=
  match ctx with
  | some c => c.frame_size
  | none => 0

/-- `opus_frame_encode(ctx, pcm_data, pcm_length, output_buffer, output_buffer_size)`.
Returns the context after the call (the engine state it owns may have
mutated), the contents of the output buffer after the call, and the return
value. -/
def opus_frame_encode {E : Type} (eng : CodecEngine E)
    (ctx : Option (opus_encoder_context E))
    (pcm_data : Option (List Nat)) (pcm_length : Int)
    (output_buffer : Option (List Nat)) (output_buffer_size : Int) :
    Option (opus_encoder_context E) × Option (List Nat) × Int :=
  match ctx, pcm_data, output_buffer with
  | some c, some pcm, some out =>
      match c.encoder with
      | some e =>
          let r := eng.opus_encode e pcm (num_samples pcm_length c.channels)
                     out output_buffer_size
          (some { c with encoder := some r.1 }, some r.2.2, r.2.1)
      | none => (some c, some out, -1)
  | _, _, _ => (ctx, output_buffer, -1)

/-- `opus_frame_encoder_destroy(ctx)`: the sequence of release events the
call performs (empty for a NULL handle; engine release before context free
otherwise). -/
def opus_frame_encoder_destroy {E : Type}
    (ctx : Option (opus_encoder_context E)) : List AllocEvent :=
  match ctx with
  | none => []
  | some c =>
      (match c.encoder with
       | some _ => [AllocEvent.engFree]
       | none => []) ++ [AllocEvent.ctxFree]

/-- `opus_frame_encoder_set_bitrate(ctx, bitrate)`: returns the context after
the call and the status. -/
def opus_frame_encoder_set_bitrate {E : Type} (eng : CodecEngine E)
    (ctx : Option (opus_encoder_context E)) (bitrate : Int) :
    Option (opus_encoder_context E) × Int :=
  match ctx with
  | none => (none, -1)
  | some c =>
      match c.encoder with
      | none => (some c, -1)
      | some e =>
          let r := eng.opus_encoder_ctl e OPUS_SET_BITRATE_REQUEST bitrate
          (some { c with encoder := some r.1 }, r.2)

/-- `opus_frame_encoder_set_complexity(ctx, complexity)`: returns the context
after the call and the status. -/
def opus_frame_encoder_set_complexity {E : Type} (eng : CodecEngine E)
    (ctx : Option (opus_encoder_context E)) (complexity : Int) :
    Option (opus_encoder_context E) × Int :=
  match ctx with
  | none => (none, -1)
  | some c =>
      match c.encoder with
      | none => (some c, -1)
      | some e =>
          let r := eng.opus_encoder_ctl e OPUS_SET_COMPLEXITY_REQUEST complexity
          (some { c with encoder := some r.1 }, r.2)

/-- Validity of a context constructed for `(sr, ch)`: engine handle non-null
and cached fields consistent (`frame_size = sr / 50`). -/
def ctx_invariant {E : Type} (sr ch : Int) (c : opus_encoder_context E) : Prop :=
  c.encoder ≠ none ∧ c.sample_rate = sr ∧ c.channels = ch ∧ c.frame_size = sr / 50

/-- A tuning call: one of the two runtime knobs with its argument. -/
inductive TuneOp
  | tuneBitrate (v : Int)
  | tuneComplexity (v : Int)

/-- Apply a sequence of tuning calls to a handle, threading the context. -/
def applyTune {E : Type} (eng : CodecEngine E) :
    Option (opus_encoder_context E) → List TuneOp → Option (opus_encoder_context E)
  | ctx, [] => ctx
  | ctx, TuneOp.tuneBitrate v :: rest =>
      applyTune eng (opus_frame_encoder_set_bitrate eng ctx v).1 rest
  | ctx, TuneOp.tuneComplexity v :: rest =>
      applyTune eng (opus_frame_encoder_set_complexity eng ctx v).1 rest

/-- Encode a sequence of PCM frames (each a byte buffer with its byte length)
on a handle, threading the context; each frame gets a fresh output buffer
`outInit` of capacity `cap`.  Returns, per frame, the output-buffer contents
after the call and the return value. -/
def encodeFrames {E : Type} (eng : CodecEngine E) :
    Option (opus_encoder_context E) → List (List Nat × Int) → List Nat → Int →
    List (Option (List Nat) × Int)
  | _, [], _, _ => []
  | ctx, (pcm, len) :: rest, outInit, cap =>
      let r := opus_frame_encode eng ctx (some pcm) len (some outInit) cap
      (r.2.1, r.2.2) :: encodeFrames eng r.1 rest outInit cap

/-- A concrete test engine over state `Int`: construction always succeeds,
the encode call returns the sample count it was handed (so the count the
wrapper forwards is observable in the return value) and bumps its state,
and control calls succeed. -/
def mockEngine : CodecEngine Int where
  opus_encoder_create := fun _ _ _ => (some 0, 0)
  opus_encode := fun e _ ns out _ => (e + 1, ns, out)
  opus_encoder_ctl := fun e _ _ => (e, 0)

/-- A concrete test engine whose constructor always fails with status -5 and
a NULL instance. -/
def failEngine : CodecEngine Int where
  opus_encoder_create := fun _ _ _ => (none, -5)
  opus_encode := fun e _ ns out _ => (e, ns, out)
  opus_encoder_ctl := fun e _ _ => (e, 0)

/-- The context `create(48000, 1, app)` builds with the test engine. -/
def c48 : opus_encoder_context Int :=
  { encoder := some 0, sample_rate := 48000, channels := 1, frame_size := 960 }

example : opus_frame_encoder_create mockEngine true 48000 1 2049
    = (some c48, [AllocEvent.ctxAlloc, AllocEvent.engAlloc]) := by
  rfl

example : num_samples 1920 1 = 960 := by rfl

example : num_samples (-2) 1 = 2147483647 := by decide

example : num_samples (-4) 1 = 2147483646 := by decide

/-- Helper: for a non-negative `int`-ranged byte length and a channel count of
1 or 2, the C conversion chain computes the plain truncated quotient. -/
theorem num_samples_eq_div (L ch : Int) (h0 : 0 ≤ L) (h1 : L < 2147483648)
    (hch : ch = 1 ∨ ch = 2) : num_samples L ch = L / 2 / ch := by
  have hs : toSizeT L = L.toNat := by
    simp only [toSizeT]
    omega
  have h11 : toSizeT 1 = 1 := rfl
  have h22 : toSizeT 2 = 2 := rfl
  rcases hch with rfl | rfl
  · show toCInt (toSizeT L / 2 / toSizeT 1) = L / 2 / 1
    rw [hs, h11, Nat.div_one]
    simp only [toCInt]
    rw [if_pos (by omega)]
    omega
  · show toCInt (toSizeT L / 2 / toSizeT 2) = L / 2 / 2
    rw [hs, h22]
    simp only [toCInt]
    rw [if_pos (by omega)]
    omega

/-- Helper: encode with a NULL context returns `(NULL, out, -1)`. -/
theorem encode_none {E : Type} (eng : CodecEngine E)
    (pcm out : Option (List Nat)) (len cap : Int) :
    opus_frame_encode eng none pcm len out cap = (none, out, -1) := by
  cases pcm <;> cases out <;> rfl

/-- Helper: on a non-NULL context, encode returns a non-NULL context whose
cached fields are unchanged, and it never nullifies the encoder field. -/
theorem encode_preserves {E : Type} (eng : CodecEngine E)
    (c : opus_encoder_context E) (pcm out : Option (List Nat)) (len cap : Int) :
    ∃ c', (opus_frame_encode eng (some c) pcm len out cap).1 = some c'
      ∧ c'.sample_rate = c.sample_rate ∧ c'.channels = c.channels
      ∧ c'.frame_size = c.frame_size
      ∧ (c.encoder ≠ none → c'.encoder ≠ none) := by
  cases pcm with
  | none => cases out <;> exact ⟨c, rfl, rfl, rfl, rfl, fun h => h⟩
  | some p =>
    cases out with
    | none => exact ⟨c, rfl, rfl, rfl, rfl, fun h => h⟩
    | some o =>
      cases hc : c.encoder with
      | none =>
          refine ⟨c, ?_, rfl, rfl, rfl, fun h => (h rfl).elim⟩
          simp [opus_frame_encode, hc]
      | some e =>
          refine ⟨{ c with encoder := some (eng.opus_encode e p (num_samples len c.channels) o cap).1 }, ?_, rfl, rfl, rfl, ?_⟩
          · simp [opus_frame_encode, hc]
          · intro _
            simp

/-- Helper: on a non-NULL context, set_bitrate returns a non-NULL context with
unchanged cached fields and never nullifies the encoder field. -/
theorem set_bitrate_preserves {E : Type} (eng : CodecEngine E)
    (c : opus_encoder_context E) (v : Int) :
    ∃ c', (opus_frame_encoder_set_bitrate eng (some c) v).1 = some c'
      ∧ c'.sample_rate = c.sample_rate ∧ c'.channels = c.channels
      ∧ c'.frame_size = c.frame_size
      ∧ (c.encoder ≠ none → c'.encoder ≠ none) := by
  cases hc : c.encoder with
  | none =>
      refine ⟨c, ?_, rfl, rfl, rfl, fun h => (h rfl).elim⟩
      simp [opus_frame_encoder_set_bitrate, hc]
  | some e =>
      refine ⟨{ c with encoder := some (eng.opus_encoder_ctl e OPUS_SET_BITRATE_REQUEST v).1 }, ?_, rfl, rfl, rfl, ?_⟩
      · simp [opus_frame_encoder_set_bitrate, hc]
      · intro _
        simp

/-- Helper: on a non-NULL context, set_complexity returns a non-NULL context
with unchanged cached fields and never nullifies the encoder field. -/
theorem set_complexity_preserves {E : Type} (eng : CodecEngine E)
    (c : opus_encoder_context E) (v : Int) :
    ∃ c', (opus_frame_encoder_set_complexity eng (some c) v).1 = some c'
      ∧ c'.sample_rate = c.sample_rate ∧ c'.channels = c.channels
      ∧ c'.frame_size = c.frame_size
      ∧ (c.encoder ≠ none → c'.encoder ≠ none) := by
  cases hc : c.encoder with
  | none =>
      refine ⟨c, ?_, rfl, rfl, rfl, fun h => (h rfl).elim⟩
      simp [opus_frame_encoder_set_complexity, hc]
  | some e =>
      refine ⟨{ c with encoder := some (eng.opus_encoder_ctl e OPUS_SET_COMPLEXITY_REQUEST v).1 }, ?_, rfl, rfl, rfl, ?_⟩
      · simp [opus_frame_encoder_set_complexity, hc]
      · intro _
        simp

/-- C2: if the handle is NULL, the handle's encoder field is NULL, the PCM
pointer is NULL, or the output pointer is NULL, `opus_frame_encode` returns
-1 and the output buffer is returned exactly as it was: no byte is written. -/
theorem encode_null_returns_neg_one {E : Type} (eng : CodecEngine E)
    (ctx : Option (opus_encoder_context E)) (pcm out : Option (List Nat))
    (len cap : Int)
    (h : ctx = none ∨ pcm = none ∨ out = none ∨
         ∃ c, ctx = some c ∧ c.encoder = none) :
    opus_frame_encode eng ctx pcm len out cap = (ctx, out, -1) := by
  rcases h with rfl | rfl | rfl | ⟨c, rfl, hc⟩
  · cases pcm <;> cases out <;> rfl
  · cases ctx <;> cases out <;> rfl
  · cases ctx <;> cases pcm <;> rfl
  · cases pcm <;> cases out <;> simp [opus_frame_encode, hc]

/-- Witness for C2 at a concrete input: NULL handle, everything else valid. -/
theorem encode_null_returns_neg_one_witness :
    opus_frame_encode mockEngine (none : Option (opus_encoder_context Int))
      (some []) 1920 (some [7, 7]) 4000 = (none, some [7, 7], -1) :=
  encode_null_returns_neg_one mockEngine none (some []) (some [7, 7]) 1920 4000
    (Or.inl rfl)

/-- C3: for the supported sample rates and channel counts, when the engine
accepts the configuration, `create` succeeds and caches
`frame_size = sample_rate / 50`; `get_frame_size` returns that cached field,
returns 0 on a NULL handle, is total, and (by its definition, which takes no
engine argument) never calls into the engine. -/
theorem create_and_get_frame_size {E : Type} (eng : CodecEngine E)
    (sr ch app : Int) (e : E)
    (_hsr : sr = 8000 ∨ sr = 12000 ∨ sr = 16000 ∨ sr = 24000 ∨ sr = 48000)
    (_hch : ch = 1 ∨ ch = 2)
    (heng : eng.opus_encoder_create sr ch app = (some e, OPUS_OK)) :
    (opus_frame_encoder_create eng true sr ch app).1
        = some { encoder := some e, sample_rate := sr, channels := ch, frame_size := sr / 50 }
    ∧ opus_frame_encoder_get_frame_size
        (opus_frame_encoder_create eng true sr ch app).1 = sr / 50
    ∧ opus_frame_encoder_get_frame_size
        (none : Option (opus_encoder_context E)) = 0
    ∧ ∀ c : opus_encoder_context E,
        opus_frame_encoder_get_frame_size (some c) = c.frame_size := by
  have hcr : (opus_frame_encoder_create eng true sr ch app).1
      = some { encoder := some e, sample_rate := sr, channels := ch, frame_size := sr / 50 } := by
    simp [opus_frame_encoder_create, heng, OPUS_OK]
  refine ⟨hcr, ?_, rfl, fun c => rfl⟩
  rw [hcr]
  rfl

/-- Witness for C3: the test engine at 48000 Hz mono yields frame size 960. -/
theorem create_and_get_frame_size_witness :
    (opus_frame_encoder_create mockEngine true 48000 1 2049).1 = some c48
    ∧ opus_frame_encoder_get_frame_size
        (opus_frame_encoder_create mockEngine true 48000 1 2049).1 = 960 := by
  have h := create_and_get_frame_size mockEngine 48000 1 2049 0
    (Or.inr (Or.inr (Or.inr (Or.inr rfl)))) (Or.inl rfl) rfl
  exact ⟨h.1, h.2.1⟩

/-- C7: set_bitrate and set_complexity return -1 on a NULL handle or NULL
encoder field; on a valid handle they forward the value to the engine's
control call under the corresponding request identifier and return the
engine's status verbatim. -/
theorem ctl_requires_valid_handle_and_forwards {E : Type} (eng : CodecEngine E)
    (v : Int) :
    opus_frame_encoder_set_bitrate eng (none : Option (opus_encoder_context E)) v
        = (none, -1)
    ∧ opus_frame_encoder_set_complexity eng (none : Option (opus_encoder_context E)) v
        = (none, -1)
    ∧ (∀ c : opus_encoder_context E, c.encoder = none →
        opus_frame_encoder_set_bitrate eng (some c) v = (some c, -1)
        ∧ opus_frame_encoder_set_complexity eng (some c) v = (some c, -1))
    ∧ (∀ c : opus_encoder_context E, ∀ e, c.encoder = some e →
        opus_frame_encoder_set_bitrate eng (some c) v
          = (some { c with encoder := some (eng.opus_encoder_ctl e OPUS_SET_BITRATE_REQUEST v).1 }, (eng.opus_encoder_ctl e OPUS_SET_BITRATE_REQUEST v).2)
        ∧ opus_frame_encoder_set_complexity eng (some c) v
          = (some { c with encoder := some (eng.opus_encoder_ctl e OPUS_SET_COMPLEXITY_REQUEST v).1 }, (eng.opus_encoder_ctl e OPUS_SET_COMPLEXITY_REQUEST v).2)) := by
  refine ⟨rfl, rfl, ?_, ?_⟩
  · intro c hc
    constructor <;> simp [opus_frame_encoder_set_bitrate,
      opus_frame_encoder_set_complexity, hc]
  · intro c e hc
    constructor <;> simp [opus_frame_encoder_set_bitrate,
      opus_frame_encoder_set_complexity, hc]

/-- Witness for C7: the valid-handle branch at a concrete input. -/
theorem ctl_requires_valid_handle_and_forwards_witness :
    opus_frame_encoder_set_bitrate mockEngine (some c48) 16000 = (some c48, 0)
    ∧ opus_frame_encoder_set_complexity mockEngine (some c48) 5 = (some c48, 0) := by
  have hb := ((ctl_requires_valid_handle_and_forwards mockEngine 16000).2.2.2 c48 0 rfl).1
  have hc := ((ctl_requires_valid_handle_and_forwards mockEngine 5).2.2.2 c48 0 rfl).2
  exact ⟨hb, hc⟩

/-- C4: create fails atomically.  If the context `malloc` fails, create
returns NULL with an empty effect trace.  If the engine constructor reports
a non-success status or yields no instance, create returns NULL, and — given
the engine's contract that a failing constructor returns no instance — every
failing create leaves zero net context and engine allocations. -/
theorem create_atomic {E : Type} (eng : CodecEngine E) (m : Bool)
    (sr ch app : Int)
    (hcontract : (eng.opus_encoder_create sr ch app).2 ≠ OPUS_OK →
                 (eng.opus_encoder_create sr ch app).1 = none) :
    (m = false → opus_frame_encoder_create eng m sr ch app = (none, []))
    ∧ (∀ e? err, eng.opus_encoder_create sr ch app = (e?, err) →
        err ≠ OPUS_OK ∨ e? = none → m = true →
        (opus_frame_encoder_create eng m sr ch app).1 = none)
    ∧ ((opus_frame_encoder_create eng m sr ch app).1 = none →
        ctxNet (opus_frame_encoder_create eng m sr ch app).2 = 0
        ∧ engNet (opus_frame_encoder_create eng m sr ch app).2 = 0) := by
  refine ⟨?_, ?_, ?_⟩
  · rintro rfl
    rfl
  · rintro e? err heng hfail rfl
    rcases e? with _ | e
    · simp [opus_frame_encoder_create, heng]
    · rcases hfail with herr | hnone
      · simp [opus_frame_encoder_create, heng, herr]
      · exact absurd hnone (by simp)
  · intro hn
    cases m with
    | false => exact ⟨rfl, rfl⟩
    | true =>
        rcases heng : eng.opus_encoder_create sr ch app with ⟨e?, err⟩
        rcases e? with _ | e
        · constructor <;> simp [opus_frame_encoder_create, heng, ctxNet, engNet,
            List.count_cons, List.count_nil]
        · by_cases herr : err = OPUS_OK
          · subst herr
            rw [show (opus_frame_encoder_create eng true sr ch app).1
                = some { encoder := some e, sample_rate := sr, channels := ch, frame_size := sr / 50 }
              from by simp [opus_frame_encoder_create, heng, OPUS_OK]] at hn
            exact absurd hn (by simp)
          · have h1 := hcontract (by rw [heng] at *; exact herr)
            rw [heng] at h1
            exact absurd h1 (by simp)

/-- Witness for C4: the always-failing engine with a succeeding malloc leaves
no outstanding allocation. -/
theorem create_atomic_witness :
    ctxNet (opus_frame_encoder_create failEngine true 16000 1 2048).2 = 0
    ∧ engNet (opus_frame_encoder_create failEngine true 16000 1 2048).2 = 0 :=
  (create_atomic failEngine true 16000 1 2048 (fun _ => rfl)).2.2 rfl

/-- C5: every context the public interface exposes is fully valid.  A
successful create returns a context satisfying the invariant (engine handle
non-null, `sample_rate` and `channels` equal to the construction arguments,
`frame_size = sample_rate / 50`), and each of encode, set_bitrate and
set_complexity maps an invariant-satisfying context to an
invariant-satisfying context — never to NULL and never to a
partially-initialized one. -/
theorem create_invariant_preserved {E : Type} (eng : CodecEngine E) (m : Bool)
    (sr ch app len cap v : Int) (pcm out : Option (List Nat)) :
    (∀ c, (opus_frame_encoder_create eng m sr ch app).1 = some c →
        ctx_invariant sr ch c)
    ∧ (∀ c, ctx_invariant sr ch c →
        ∃ c', (opus_frame_encode eng (some c) pcm len out cap).1 = some c'
          ∧ ctx_invariant sr ch c')
    ∧ (∀ c, ctx_invariant sr ch c →
        ∃ c', (opus_frame_encoder_set_bitrate eng (some c) v).1 = some c'
          ∧ ctx_invariant sr ch c')
    ∧ (∀ c, ctx_invariant sr ch c →
        ∃ c', (opus_frame_encoder_set_complexity eng (some c) v).1 = some c'
          ∧ ctx_invariant sr ch c') := by
  refine ⟨?_, ?_, ?_, ?_⟩
  · intro c hc
    cases m with
    | false => exact absurd hc (by simp [opus_frame_encoder_create])
    | true =>
        rcases heng : eng.opus_encoder_create sr ch app with ⟨e?, err⟩
        rcases e? with _ | e
        · exact absurd hc (by simp [opus_frame_encoder_create, heng])
        · by_cases herr : err = OPUS_OK
          · subst herr
            rw [show (opus_frame_encoder_create eng true sr ch app).1
                = some { encoder := some e, sample_rate := sr, channels := ch, frame_size := sr / 50 }
              from by simp [opus_frame_encoder_create, heng, OPUS_OK]] at hc
            rcases Option.some.inj hc with rfl
            exact ⟨by simp, rfl, rfl, rfl⟩
          · exact absurd hc (by simp [opus_frame_encoder_create, heng, herr])
  · intro c hc
    obtain ⟨c', h1, h2, h3, h4, h5⟩ := encode_preserves eng c pcm out len cap
    exact ⟨c', h1, h5 hc.1, h2.trans hc.2.1, h3.trans hc.2.2.1, h4.trans hc.2.2.2⟩
  · intro c hc
    obtain ⟨c', h1, h2, h3, h4, h5⟩ := set_bitrate_preserves eng c v
    exact ⟨c', h1, h5 hc.1, h2.trans hc.2.1, h3.trans hc.2.2.1, h4.trans hc.2.2.2⟩
  · intro c hc
    obtain ⟨c', h1, h2, h3, h4, h5⟩ := set_complexity_preserves eng c v
    exact ⟨c', h1, h5 hc.1, h2.trans hc.2.1, h3.trans hc.2.2.1, h4.trans hc.2.2.2⟩

/-- Witness for C5: the context built by the test engine at 48000 Hz mono
satisfies the invariant. -/
theorem create_invariant_preserved_witness : ctx_invariant 48000 1 c48 :=
  (create_invariant_preserved mockEngine true 48000 1 2049 1920 4000 16000
    (some []) (some [])).1 c48 rfl

/-- C6: destroy on a NULL handle performs nothing; on a non-NULL handle with
a non-null encoder it releases the engine instance first and the context
memory second; and a successful create followed by one destroy leaves zero
net context and engine allocations. -/
theorem destroy_releases_all {E : Type} (eng : CodecEngine E)
    (sr ch app : Int) :
    opus_frame_encoder_destroy (none : Option (opus_encoder_context E)) = []
    ∧ (∀ c : opus_encoder_context E, ∀ e, c.encoder = some e →
        opus_frame_encoder_destroy (some c)
          = [AllocEvent.engFree, AllocEvent.ctxFree])
    ∧ (∀ c, (opus_frame_encoder_create eng true sr ch app).1 = some c →
        ctxNet ((opus_frame_encoder_create eng true sr ch app).2
            ++ opus_frame_encoder_destroy (some c)) = 0
        ∧ engNet ((opus_frame_encoder_create eng true sr ch app).2
            ++ opus_frame_encoder_destroy (some c)) = 0) := by
  refine ⟨rfl, ?_, ?_⟩
  · intro c e hc
    simp [opus_frame_encoder_destroy, hc]
  · intro c hc
    rcases heng : eng.opus_encoder_create sr ch app with ⟨e?, err⟩
    rcases e? with _ | e
    · exact absurd hc (by simp [opus_frame_encoder_create, heng])
    · by_cases herr : err = OPUS_OK
      · subst herr
        have hpair : opus_frame_encoder_create eng true sr ch app
            = (some { encoder := some e, sample_rate := sr, channels := ch, frame_size := sr / 50 },
               [AllocEvent.ctxAlloc, AllocEvent.engAlloc]) := by
          simp [opus_frame_encoder_create, heng, OPUS_OK]
        rw [hpair] at hc
        rcases Option.some.inj hc with rfl
        rw [hpair]
        constructor <;> rfl
      · exact absurd hc (by simp [opus_frame_encoder_create, heng, herr])

/-- Witness for C6: create then destroy with the test engine nets to zero. -/
theorem destroy_releases_all_witness :
    ctxNet ((opus_frame_encoder_create mockEngine true 48000 1 2049).2
        ++ opus_frame_encoder_destroy (some c48)) = 0
    ∧ engNet ((opus_frame_encoder_create mockEngine true 48000 1 2049).2
        ++ opus_frame_encoder_destroy (some c48)) = 0 :=
  (destroy_releases_all mockEngine 48000 1 2049).2.2 c48 rfl

/-- C8: neither encode nor the tuning operations modifies the context's
cached fields — whenever any of the three calls yields a non-NULL context,
the input handle was a non-NULL context with the same `sample_rate`,
`channels` and `frame_size`. -/
theorem ops_do_not_modify_cached_fields {E : Type} (eng : CodecEngine E)
    (ctx : Option (opus_encoder_context E)) (pcm out : Option (List Nat))
    (len cap v : Int) :
    (∀ c', (opus_frame_encode eng ctx pcm len out cap).1 = some c' →
        ∃ c, ctx = some c ∧ c'.sample_rate = c.sample_rate
          ∧ c'.channels = c.channels ∧ c'.frame_size = c.frame_size)
    ∧ (∀ c', (opus_frame_encoder_set_bitrate eng ctx v).1 = some c' →
        ∃ c, ctx = some c ∧ c'.sample_rate = c.sample_rate
          ∧ c'.channels = c.channels ∧ c'.frame_size = c.frame_size)
    ∧ (∀ c', (opus_frame_encoder_set_complexity eng ctx v).1 = some c' →
        ∃ c, ctx = some c ∧ c'.sample_rate = c.sample_rate
          ∧ c'.channels = c.channels ∧ c'.frame_size = c.frame_size) := by
  refine ⟨?_, ?_, ?_⟩
  · intro c' h
    cases ctx with
    | none =>
        rw [encode_none] at h
        exact absurd h (by simp)
    | some c =>
        obtain ⟨c'', h1, h2, h3, h4, _⟩ := encode_preserves eng c pcm out len cap
        rw [h1] at h
        rcases Option.some.inj h with rfl
        exact ⟨c, rfl, h2, h3, h4⟩
  · intro c' h
    cases ctx with
    | none => exact absurd h (by simp [opus_frame_encoder_set_bitrate])
    | some c =>
        obtain ⟨c'', h1, h2, h3, h4, _⟩ := set_bitrate_preserves eng c v
        rw [h1] at h
        rcases Option.some.inj h with rfl
        exact ⟨c, rfl, h2, h3, h4⟩
  · intro c' h
    cases ctx with
    | none => exact absurd h (by simp [opus_frame_encoder_set_complexity])
    | some c =>
        obtain ⟨c'', h1, h2, h3, h4, _⟩ := set_complexity_preserves eng c v
        rw [h1] at h
        rcases Option.some.inj h with rfl
        exact ⟨c, rfl, h2, h3, h4⟩

/-- Witness for C8: a concrete encode call leaves the cached fields of `c48`
unchanged. -/
theorem ops_do_not_modify_cached_fields_witness :
    ∃ c, (some c48 : Option (opus_encoder_context Int)) = some c
      ∧ (opus_encoder_context.mk (some 1) 48000 1 960 : opus_encoder_context Int).sample_rate = c.sample_rate
      ∧ (opus_encoder_context.mk (some 1) 48000 1 960 : opus_encoder_context Int).channels = c.channels
      ∧ (opus_encoder_context.mk (some 1) 48000 1 960 : opus_encoder_context Int).frame_size = c.frame_size :=
  (ops_do_not_modify_cached_fields mockEngine (some c48) (some []) (some [])
    1920 4000 16000).1 (opus_encoder_context.mk (some 1) 48000 1 960) rfl

/-- C9: two-run determinism.  Two handles obtained by constructing with
identical configuration (same engine, same malloc outcome, same sample rate,
channel count and application profile) and applying the same tuning calls
produce identical per-frame compressed output for the same sequence of PCM
frames: all state the wrapper touches is threaded through the context, so
there is no hidden source of nondeterminism. -/
theorem sequential_determinism {E : Type} (eng : CodecEngine E) (m : Bool)
    (sr ch app cap : Int) (ops : List TuneOp)
    (frames : List (List Nat × Int)) (outInit : List Nat)
    (h1 h2 : Option (opus_encoder_context E))
    (hh1 : h1 = applyTune eng (opus_frame_encoder_create eng m sr ch app).1 ops)
    (hh2 : h2 = applyTune eng (opus_frame_encoder_create eng m sr ch app).1 ops) :
    encodeFrames eng h1 frames outInit cap
      = encodeFrames eng h2 frames outInit cap := by
  subst hh1
  subst hh2
  rfl

/-- Witness for C9: two identically configured and tuned runs of a two-frame
sequence on the test engine agree. -/
theorem sequential_determinism_witness :
    encodeFrames mockEngine
      (applyTune mockEngine (opus_frame_encoder_create mockEngine true 48000 1 2049).1 [TuneOp.tuneBitrate 16000])
      [([], 1920), ([], 1920)] [] 4000
    = encodeFrames mockEngine
      (applyTune mockEngine (opus_frame_encoder_create mockEngine true 48000 1 2049).1 [TuneOp.tuneBitrate 16000])
      [([], 1920), ([], 1920)] [] 4000 :=
  sequential_determinism mockEngine true 48000 1 2049 4000
    [TuneOp.tuneBitrate 16000] [([], 1920), ([], 1920)] [] _ _ rfl rfl

/-- C1 counterexample: at `pcm_length = -2` on a valid mono handle, the
sample count handed to the engine is not the claimed integer quotient
`-2 / 2 / 1`.  `sizeof(opus_int16)` is an unsigned `size_t`, so the length
is converted to unsigned 32-bit before the division: the engine receives
2147483647.  The test engine returns the sample count it receives, and the
wrapper returns that value, making the forwarded count observable. -/
theorem encode_sample_count_counterexample :
    (opus_frame_encode mockEngine (some c48) (some []) (-2) (some []) 4000).2.2
      = 2147483647
    ∧ (-2 : Int) / 2 / 1 = -1
    ∧ (2147483647 : Int) ≠ -1 := by
  refine ⟨?_, by decide, by decide⟩
  decide

/-- C1 (amended): for every call with a valid handle, non-null buffers and a
NON-NEGATIVE `pcm_length` (and a channel count of 1 or 2, the values the
engine accepts), the sample count handed to the engine's single-frame encode
call is exactly `pcm_length / 2 / channels` (integer division), and the
wrapper returns the engine's return value unchanged, passing the output
buffer and its capacity straight through. -/
theorem encode_forwards_sample_count {E : Type} (eng : CodecEngine E)
    (c : opus_encoder_context E) (e : E) (pcm out : List Nat) (len cap : Int)
    (henc : c.encoder = some e)
    (hlen0 : 0 ≤ len) (hlen1 : len < 2147483648)
    (hch : c.channels = 1 ∨ c.channels = 2) :
    opus_frame_encode eng (some c) (some pcm) len (some out) cap
      = (some { c with encoder := some (eng.opus_encode e pcm (len / 2 / c.channels) out cap).1 },
         some (eng.opus_encode e pcm (len / 2 / c.channels) out cap).2.2,
         (eng.opus_encode e pcm (len / 2 / c.channels) out cap).2.1) := by
  have hns := num_samples_eq_div len c.channels hlen0 hlen1 hch
  simp [opus_frame_encode, henc, hns]

/-- Witness for amended C1: a canonical 20ms mono frame of 1920 bytes at
48000 Hz is handed to the engine as 960 samples, and the engine's return
value (960 for the test engine) comes back unchanged. -/
theorem encode_forwards_sample_count_witness :
    opus_frame_encode mockEngine (some c48) (some []) 1920 (some []) 4000
      = (some (opus_encoder_context.mk (some 1) 48000 1 960), some [], 960) := by
  have h := encode_forwards_sample_count mockEngine c48 0 [] [] 1920 4000 rfl
    (by decide) (by decide) (Or.inl rfl)
  exact h.trans (by rfl)

/-- C10 counterexample: at `pcm_length = -4` on a valid mono handle, the
count forwarded to the engine is 2147483646 — a large positive value, not
the claimed truncated quotient `-4 / 2 / 1 = -2` and not zero or negative. -/
theorem encode_negative_length_counterexample :
    (opus_frame_encode mockEngine (some c48) (some []) (-4) (some []) 4000).2.2
      = 2147483646
    ∧ (-4 : Int) / 2 / 1 = -2
    ∧ ¬((2147483646 : Int) ≤ 0)
    ∧ (2147483646 : Int) ≠ -2 := by
  refine ⟨?_, by decide, by decide, by decide⟩
  decide

/-- C10 (amended): the wrapper performs no validation of `pcm_length` or
`output_buffer_size` once the null checks pass: it always calls the engine,
forwarding `num_samples pcm_length channels` and the capacity verbatim, and
returns the engine's status — failure is decided solely by the engine.  For
non-negative `pcm_length` the forwarded count is the truncated quotient
`pcm_length / 2 / channels` (possibly zero; up to `2 * channels - 1`
trailing bytes are silently discarded).  A negative `pcm_length` is also
accepted, but the unsigned `size_t` conversion makes the forwarded count
strictly positive (never the zero-or-negative truncated quotient). -/
theorem encode_no_length_validation {E : Type} (eng : CodecEngine E)
    (c : opus_encoder_context E) (e : E) (pcm out : List Nat) (len cap : Int)
    (henc : c.encoder = some e)
    (hch : c.channels = 1 ∨ c.channels = 2) :
    (opus_frame_encode eng (some c) (some pcm) len (some out) cap
      = (some { c with encoder := some (eng.opus_encode e pcm (num_samples len c.channels) out cap).1 },
         some (eng.opus_encode e pcm (num_samples len c.channels) out cap).2.2,
         (eng.opus_encode e pcm (num_samples len c.channels) out cap).2.1))
    ∧ (0 ≤ len → len < 2147483648 →
        num_samples len c.channels = len / 2 / c.channels
        ∧ (len / 2 / c.channels) * (2 * c.channels) ≤ len
        ∧ len < (len / 2 / c.channels) * (2 * c.channels) + 2 * c.channels)
    ∧ (-2147483648 ≤ len → len < 0 → 0 < num_samples len c.channels) := by
  refine ⟨by simp [opus_frame_encode, henc], ?_, ?_⟩
  · intro h0 h1
    refine ⟨num_samples_eq_div len c.channels h0 h1 hch, ?_, ?_⟩ <;>
      rcases hch with hc1 | hc1 <;> rw [hc1] <;> omega
  · intro h0 h1
    have hs : toSizeT len = (len + 4294967296).toNat := by
      simp only [toSizeT]
      omega
    have h11 : toSizeT 1 = 1 := rfl
    have h22 : toSizeT 2 = 2 := rfl
    rcases hch with hc1 | hc1
    · rw [hc1]
      show 0 < toCInt (toSizeT len / 2 / toSizeT 1)
      rw [hs, h11, Nat.div_one]
      simp only [toCInt]
      rw [if_pos (by omega)]
      omega
    · rw [hc1]
      show 0 < toCInt (toSizeT len / 2 / toSizeT 2)
      rw [hs, h22]
      simp only [toCInt]
      rw [if_pos (by omega)]
      omega

/-- Witness for amended C10: an odd 3-byte length on a mono handle is
accepted and forwarded as the truncated count 1 (one trailing byte
discarded), with the engine's status returned unchanged. -/
theorem encode_no_length_validation_witness :
    opus_frame_encode mockEngine (some c48) (some []) 3 (some []) 4000
      = (some (opus_encoder_context.mk (some 1) 48000 1 960), some [], 1)
    ∧ (0 : Int) < num_samples (-4) 1 := by
  have h := encode_no_length_validation mockEngine c48 0 [] [] 3 4000 rfl
    (Or.inl rfl)
  have h2 := encode_no_length_validation mockEngine c48 0 [] [] (-4) 4000 rfl
    (Or.inl rfl)
  exact ⟨h.1.trans (by rfl), by simpa using h2.2.2 (by decide) (by decide)⟩
